import Mathlib

/-!
Shallow embedding of the runtime behaviour of the lesson scripts in this
repository.  JavaScript numbers are modelled as rationals (`ℚ`), arrays as
`List`, thrown exceptions as the `Except.error` branch of `Except`, and
`null`/`undefined` as explicit constructors.  Each definition mirrors one
function or class of the TypeScript source, keeping the source's names.
-/

namespace Lesson04

/-- `BankAccount` from `src/lesson-04-classes.ts` (section 2, ACCESS
MODIFIERS).  Only the `balance` field participates in the behaviour of
`deposit`, `withdraw` and `getBalance`; `accountNumber` and `owner` are
carried verbatim. -/
structure BankAccount where
  accountNumber : String
  owner : String
  balance : ℚ
deriving Repr, DecidableEq

/-- `public deposit(amount: number): void` — adds `amount` to the balance
only when `amount > 0`; otherwise the state is unchanged. -/
def BankAccount.deposit (acc : BankAccount) (amount : ℚ) : BankAccount :=
  if amount > 0 then { acc with balance := acc.balance + amount } else acc

/-- `public withdraw(amount: number): boolean` — subtracts `amount` and
returns `true` when `amount > 0 && amount <= this.balance`; otherwise
returns `false` with the state unchanged. -/
def BankAccount.withdraw (acc : BankAccount) (amount : ℚ) :
    Bool × BankAccount :=
  if amount > 0 ∧ amount ≤ acc.balance then
    (true, { acc with balance := acc.balance - amount })
  else
    (false, acc)

/-- `public getBalance(): number`. -/
def BankAccount.getBalance (acc : BankAccount) : ℚ := acc.balance

/-- One deposit or withdraw call with its `number` argument. -/
inductive BankOp where
  | deposit (amount : ℚ)
  | withdraw (amount : ℚ)
deriving Repr, DecidableEq

/-- Run one method call on the account (the `Bool` result of `withdraw` is
dropped; only the state matters for the invariant). -/
def BankAccount.step (acc : BankAccount) : BankOp → BankAccount
  | .deposit a => acc.deposit a
  | .withdraw a => (acc.withdraw a).2

/-- Run a finite sequence of method calls left to right. -/
def BankAccount.runOps (acc : BankAccount) (ops : List BankOp) : BankAccount :=
  ops.foldl BankAccount.step acc

/-- `Temperature` from `src/lesson-04-classes.ts` (section 5, GETTERS AND
SETTERS). -/
structure Temperature where
  _celsius : ℚ
deriving Repr, DecidableEq

/-- `get celsius()`. -/
def Temperature.celsius (t : Temperature) : ℚ := t._celsius

/-- `set celsius(value)` — throws when `value < -273.15`, otherwise stores
`value` in `_celsius`.  The thrown `Error` is the `Except.error` branch; on
error no updated object exists, so the stored field is untouched. -/
def Temperature.setCelsius (t : Temperature) (value : ℚ) :
    Except String Temperature :=
  if value < -273.15 then
    .error "Temperature cannot be below absolute zero"
  else
    .ok { t with _celsius := value }

/-- `get fahrenheit()` — `(this._celsius * 9) / 5 + 32`. -/
def Temperature.fahrenheit (t : Temperature) : ℚ :=
  t._celsius * 9 / 5 + 32

/-- The object after the assignment statement `t.celsius = value`: the
updated object when the setter returns, the untouched object when it
throws (the `throw` runs before the field assignment). -/
def Temperature.afterAssignCelsius (t : Temperature) (value : ℚ) :
    Temperature :=
  match t.setCelsius value with
  | .ok t' => t'
  | .error _ => t

end Lesson04

namespace Lesson03

/-- `async function fetchDataSafe(url): Promise<string | null>` from
`src/lesson-03-functions.ts` (section 8).  The two inner operations are
passed in as their outcomes (`Except` models a rejected promise): the
outer layer is `await fetch(url)`, and on its success the inner layer is
the `response.text()` promise.  The `try/catch` catches a rejection of the
awaited `fetch` and returns the ordinary value `null` (`Option.none`).
The `text()` promise, however, is returned without `await`: its rejection
happens after the `try` block has been left, escapes the `catch`, and
rejects the promise of `fetchDataSafe` itself — the result's `Except`
layer records exactly that. -/
def fetchDataSafe (fetchResult : Except String (Except String String)) :
    Except String (Option String) :=
  match fetchResult with
  | .ok textResult =>
      match textResult with
      | .ok s => .ok (some s)
      | .error e => .error e
  | .error _ => .ok none

/-- `function getAverage(numbers: number[]): number | null` from
`src/lesson-03-functions.ts` (exercise 1): `null` for the empty array,
otherwise `numbers.reduce((total, num) => total + num, 0) / numbers.length`. -/
def getAverage (numbers : List ℚ) : Option ℚ :=
  if numbers.length = 0 then
    none
  else
    some (numbers.foldl (fun total num => total + num) 0 / numbers.length)

end Lesson03

namespace Lesson05

/-- `Array.prototype.findIndex` — the index of the first element satisfying
the callback, `Option.none` standing for the `-1` of the missing case. -/
def findIndex {α : Type} (p : α → Bool) : List α → Option ℕ
  | [] => none
  | a :: l => if p a then some 0 else (findIndex p l).map (fun n => n + 1)

/-- `Box<T>` from `src/lesson-05-generics.ts` (section 6, GENERIC
CLASSES). -/
structure Box (T : Type) where
  value : T
deriving Repr, DecidableEq

/-- `getValue(): T`. -/
def Box.getValue {T : Type} (b : Box T) : T := b.value

/-- `setValue(value: T): void`. -/
def Box.setValue {T : Type} (_b : Box T) (value : T) : Box T :=
  { value := value }

/-- `interface User` from `src/lesson-05-generics.ts` (section 7). -/
structure User where
  id : ℤ
  name : String
  email : String
deriving Repr, DecidableEq

/-- `UserRepository` state: the private `users: User[] = []` array. -/
structure UserRepository where
  users : List User
deriving Repr, DecidableEq

/-- `findById(id)` — `this.users.find((user) => user.id === id)`. -/
def UserRepository.findById (repo : UserRepository) (id : ℤ) : Option User :=
  repo.users.find? (fun user => user.id = id)

/-- `save(user)` — `findIndex` on matching `id`; replaces in place when
found, pushes otherwise. -/
def UserRepository.save (repo : UserRepository) (user : User) :
    UserRepository :=
  match findIndex (fun u => u.id = user.id) repo.users with
  | some index => { users := repo.users.set index user }
  | none => { users := repo.users ++ [user] }

/-- `delete(id)` — `findIndex` on matching `id`; `splice(index, 1)` and
`true` when found, `false` otherwise. -/
def UserRepository.deleteById (repo : UserRepository) (id : ℤ) :
    Bool × UserRepository :=
  match findIndex (fun u => u.id = id) repo.users with
  | some index => (true, { users := repo.users.eraseIdx index })
  | none => (false, repo)

/-- One call of the mutating `Repository` interface methods. -/
inductive RepoOp where
  | save (user : User)
  | deleteById (id : ℤ)
deriving Repr, DecidableEq

/-- Run one repository call (the `Bool` result of `delete` is dropped). -/
def UserRepository.step (repo : UserRepository) : RepoOp → UserRepository
  | .save u => repo.save u
  | .deleteById i => (repo.deleteById i).2

/-- Run a finite call sequence starting from a given state. -/
def UserRepository.runOps (repo : UserRepository) (ops : List RepoOp) :
    UserRepository :=
  ops.foldl UserRepository.step repo

/-- The empty repository (`private users: User[] = []`). -/
def UserRepository.empty : UserRepository := { users := [] }

/-- A state holds two users with the same id iff the id list has a
duplicate. -/
def UserRepository.hasDupId (repo : UserRepository) : Prop :=
  ¬ (repo.users.map User.id).Nodup

/-- A JavaScript value of type `T` as seen by `processValue`: `null`,
`undefined`, or a proper value. -/
inductive JSVal (T : Type) where
  | vnull
  | vundef
  | val (a : T)
deriving Repr, DecidableEq

/-- `function processValue<T>(value: T): NonNullable<T>` from
`src/lesson-05-generics.ts` (section 9) — throws on `null` and `undefined`,
returns the argument itself otherwise. -/
def processValue {T : Type} (value : JSVal T) : Except String (JSVal T) :=
  match value with
  | .vnull => .error "Value cannot be null or undefined"
  | .vundef => .error "Value cannot be null or undefined"
  | v => .ok v

/-- `interface ApiResponse<T>` from `src/lesson-05-generics.ts`
(section 11). -/
structure ApiResponse (T : Type) where
  success : Bool
  data : Option T
  error : Option String
  timestamp : ℕ
deriving Repr, DecidableEq

/-- `ApiClient.fetchData<T>(url)` — the inner `fetch`/`json` pipeline is
passed in as its outcome and `Date.now()` as `now`.  The `try/catch`
converts any failure into a `success: false` response; the outer `Except`
layer records whether `fetchData` itself throws — it never does. -/
def ApiClient.fetchData {T : Type} (fetchResult : Except String T)
    (now : ℕ) : Except String (ApiResponse T) :=
  match fetchResult with
  | .ok d =>
      .ok { success := true, data := some d, error := none, timestamp := now }
  | .error e =>
      .ok { success := false, data := none, error := some e, timestamp := now }

/-- `swapArrayElements<T>(arr, index1, index2)` from
`src/lesson-05-generics.ts` (exercise 2).  Indices are JavaScript numbers;
integral ones are modelled as `ℤ`.  Throws when either index is outside
`[0, arr.length)`; returns a copy for equal indices; otherwise a copy with
the two entries exchanged (the destructuring assignment reads both
right-hand sides from the unmodified copy first). -/
def swapArrayElements {T : Type} [Inhabited T] (arr : List T)
    (index1 index2 : ℤ) : Except String (List T) :=
  if index1 < 0 ∨ index1 ≥ arr.length ∨ index2 < 0 ∨ index2 ≥ arr.length then
    .error "Index out of bounds"
  else if index1 = index2 then
    .ok arr
  else
    .ok ((arr.set index1.toNat (arr.getD index2.toNat default)).set
      index2.toNat (arr.getD index1.toNat default))

end Lesson05

open Lesson03 Lesson04 Lesson05

/-! ## Theorems about the embedded lesson code -/

/-- C1, counterexample: `BankAccount.deposit` does not perform its update
unconditionally — called with the argument `-5` on a balance of `100`, the
balance stays `100` even though an unconditional `balance += amount` would
have produced `95 ≠ 100`. -/
theorem C1_deposit_counterexample :
    ((BankAccount.mk "12345" "John" 100).deposit (-5)).getBalance = 100 ∧
    (100 : ℚ) + (-5) ≠ 100 := by
  constructor
  · simp [BankAccount.deposit, BankAccount.getBalance]
    norm_num
  · norm_num

/-- C1, amended: the entity classes do enforce invariants by running code —
`BankAccount.deposit` updates the balance only when `amount > 0`,
`BankAccount.withdraw` only when `0 < amount ≤ balance` (returning `false`
and leaving the state untouched otherwise), and the `Temperature` celsius
setter throws on every value below `-273.15`. -/
theorem C1_entity_runtime_guards (acc : BankAccount) (amount : ℚ)
    (t : Temperature) (v : ℚ) :
    (amount > 0 →
      (acc.deposit amount).getBalance = acc.getBalance + amount) ∧
    (¬ amount > 0 → acc.deposit amount = acc) ∧
    (0 < amount ∧ amount ≤ acc.getBalance →
      (acc.withdraw amount).1 = true ∧
      (acc.withdraw amount).2.getBalance = acc.getBalance - amount) ∧
    (¬ (0 < amount ∧ amount ≤ acc.getBalance) →
      acc.withdraw amount = (false, acc)) ∧
    (v < -273.15 → ∃ e, t.setCelsius v = .error e) := by
  refine ⟨fun h => ?_, fun h => ?_, fun h => ?_, fun h => ?_, fun h => ?_⟩
  · simp [BankAccount.deposit, BankAccount.getBalance, h]
  · simp [BankAccount.deposit, h]
  · have h2 : amount ≤ acc.balance := h.2
    simp [BankAccount.withdraw, BankAccount.getBalance, h.1, h2]
  · simp only [BankAccount.withdraw]
    rw [if_neg]
    exact fun hc => h ⟨hc.1, hc.2⟩
  · exact ⟨"Temperature cannot be below absolute zero",
      by simp [Temperature.setCelsius, h]⟩

/-- C1, amended, at a concrete input: depositing `500` on a balance of
`1000` yields `1500`. -/
theorem C1_entity_runtime_guards_witness :
    ((BankAccount.mk "12345" "John" 1000).deposit 500).getBalance =
      (BankAccount.mk "12345" "John" 1000).getBalance + 500 :=
  (C1_entity_runtime_guards (BankAccount.mk "12345" "John" 1000) 500
    (Temperature.mk 0) (-300)).1 (by norm_num)

/-- C2: assigning `v` through the celsius setter throws exactly when
`v < -273.15`; on a throw the stored `_celsius` is unchanged, and otherwise
`_celsius` becomes `v` and the fahrenheit getter then returns
`v * 9 / 5 + 32`. -/
theorem C2_celsius_setter_spec (t : Temperature) (v : ℚ) :
    ((∃ e, t.setCelsius v = .error e) ↔ v < -273.15) ∧
    (v < -273.15 → t.afterAssignCelsius v = t) ∧
    (¬ v < -273.15 →
      (t.afterAssignCelsius v)._celsius = v ∧
      (t.afterAssignCelsius v).fahrenheit = v * 9 / 5 + 32) := by
  by_cases h : v < -273.15
  · refine ⟨⟨fun _ => h, fun _ => ⟨"Temperature cannot be below absolute zero",
      by simp [Temperature.setCelsius, h]⟩⟩,
      fun _ => ?_, fun h' => absurd h h'⟩
    simp [Temperature.afterAssignCelsius, Temperature.setCelsius, h]
  · refine ⟨⟨fun ⟨e, he⟩ => ?_, fun h' => absurd h' h⟩, fun h' => absurd h' h,
      fun _ => ?_⟩
    · simp [Temperature.setCelsius, h] at he
    · simp [Temperature.afterAssignCelsius, Temperature.setCelsius, h,
        Temperature.fahrenheit]

/-- C2, at a concrete input: assigning `25` to a fresh `Temperature`
stores `25` and makes the fahrenheit getter return `25 * 9 / 5 + 32`. -/
theorem C2_celsius_setter_spec_witness :
    ((Temperature.mk 0).afterAssignCelsius 25)._celsius = 25 ∧
    ((Temperature.mk 0).afterAssignCelsius 25).fahrenheit =
      25 * 9 / 5 + 32 :=
  (C2_celsius_setter_spec (Temperature.mk 0) 25).2.2 (by norm_num)

/-- C5: `processValue` throws exactly on `null` and `undefined`, and on
every proper value it returns its argument unchanged. -/
theorem C5_processValue_spec {T : Type} (value : JSVal T) :
    ((∃ e, processValue value = .error e) ↔
      value = JSVal.vnull ∨ value = JSVal.vundef) ∧
    (∀ a : T, processValue (JSVal.val a) = .ok (JSVal.val a)) := by
  constructor
  · cases value <;> simp [processValue]
  · intro a
    simp [processValue]

/-- C6, counterexample: method calls are not observationally stateless —
`Box.setValue 2` on a box holding `1` changes what `getValue` returns, and
`BankAccount.deposit 500` on a balance of `1000` changes what `getBalance`
returns. -/
theorem C6_stateless_counterexample :
    ((Box.mk (1 : ℤ)).setValue 2).getValue = 2 ∧
    (Box.mk (1 : ℤ)).getValue = 1 ∧ (2 : ℤ) ≠ 1 ∧
    ((BankAccount.mk "12345" "John" 1000).deposit 500).getBalance = 1500 ∧
    (BankAccount.mk "12345" "John" 1000).getBalance = 1000 ∧
    (1500 : ℚ) ≠ 1000 := by
  refine ⟨rfl, rfl, by norm_num, ?_, rfl, by norm_num⟩
  simp [BankAccount.deposit, BankAccount.getBalance]
  norm_num

/-- C6, amended: `Box` and `BankAccount` carry observable state — setting a
different value changes what `getValue` returns, and depositing a positive
amount changes what `getBalance` returns. -/
theorem C6_stateful_classes (v w : ℤ) (acc : BankAccount) (a : ℚ) :
    (v ≠ w → ((Box.mk v).setValue w).getValue ≠ (Box.mk v).getValue) ∧
    (0 < a → (acc.deposit a).getBalance ≠ acc.getBalance) := by
  constructor
  · intro h
    simpa [Box.setValue, Box.getValue] using fun h' => h h'.symm
  · intro h
    simp [BankAccount.deposit, BankAccount.getBalance, h]
    intro h'
    exact absurd h' (by linarith)

/-- C6, amended, at a concrete input: overwriting a box holding `3` with
`4` changes what `getValue` returns. -/
theorem C6_stateful_classes_witness :
    ((Box.mk (3 : ℤ)).setValue 4).getValue ≠ (Box.mk (3 : ℤ)).getValue :=
  (C6_stateful_classes 3 4 (BankAccount.mk "12345" "John" 0) 1).1
    (by norm_num)

/-- C3, counterexample: an inner failure does not always propagate as a
thrown error — with the awaited fetch failing, `fetchDataSafe` resolves
normally with the ordinary value `null`, and `ApiClient.fetchData`
resolves normally with a `success: false` record. -/
theorem C3_propagation_counterexample :
    fetchDataSafe (.error "Network failure") = .ok none ∧
    @ApiClient.fetchData String (.error "Network failure") 0 =
      .ok { success := false, data := none, error := some "Network failure",
            timestamp := 0 } :=
  ⟨rfl, rfl⟩

/-- C3, amended: `fetchDataSafe` catches a rejection of the awaited
`fetch` and resolves normally with `null` — only a rejection of the
un-awaited `text()` call escapes its `catch` and rejects the promise —
while `ApiClient.fetchData` (both inner operations awaited inside `try`)
converts every inner failure into a `success: false` record and never
throws. -/
theorem C3_failures_are_caught (e : String) (now : ℕ)
    (r : Except String String) :
    fetchDataSafe (.error e) = .ok none ∧
    (∀ s, fetchDataSafe (.ok (.ok s)) = .ok (some s)) ∧
    fetchDataSafe (.ok (.error e)) = .error e ∧
    @ApiClient.fetchData String (.error e) now =
      .ok { success := false, data := none, error := some e,
            timestamp := now } ∧
    (∃ resp, @ApiClient.fetchData String r now = .ok resp) := by
  refine ⟨rfl, fun s => rfl, rfl, rfl, ?_⟩
  cases r <;> exact ⟨_, rfl⟩

/-- One `deposit` or `withdraw` call keeps a non-negative balance
non-negative. -/
theorem bankStep_nonneg (acc : BankAccount) (op : BankOp)
    (h : 0 ≤ acc.balance) : 0 ≤ (acc.step op).balance := by
  cases op with
  | deposit a =>
    by_cases ha : a > 0
    · simp [BankAccount.step, BankAccount.deposit, ha]
      linarith
    · simp only [BankAccount.step, BankAccount.deposit]
      rw [if_neg ha]
      exact h
  | withdraw a =>
    by_cases ha : a > 0 ∧ a ≤ acc.balance
    · simp [BankAccount.step, BankAccount.withdraw, ha.1, ha.2]
    · simp only [BankAccount.step, BankAccount.withdraw]
      rw [if_neg ha]
      exact h

/-- A whole call sequence keeps a non-negative balance non-negative. -/
theorem bankRunOps_nonneg (ops : List BankOp) :
    ∀ acc : BankAccount, 0 ≤ acc.balance → 0 ≤ (acc.runOps ops).balance := by
  induction ops with
  | nil => exact fun acc h => h
  | cons op ops ih =>
    intro acc h
    exact ih (acc.step op) (bankStep_nonneg acc op h)

/-- C7: starting from a non-negative initial balance, every sequence of
`deposit`/`withdraw` calls leaves the balance non-negative, and `withdraw`
returns `true` and subtracts exactly `amount` when `0 < amount ≤ balance`
while otherwise returning `false` with the balance unchanged. -/
theorem C7_balance_invariant (accountNumber owner : String) (init : ℚ)
    (h : 0 ≤ init) (ops : List BankOp) :
    0 ≤ ((BankAccount.mk accountNumber owner init).runOps ops).getBalance ∧
    (∀ (acc : BankAccount) (amount : ℚ),
      (0 < amount → amount ≤ acc.getBalance →
        (acc.withdraw amount).1 = true ∧
        (acc.withdraw amount).2.getBalance = acc.getBalance - amount) ∧
      (¬ (0 < amount ∧ amount ≤ acc.getBalance) →
        acc.withdraw amount = (false, acc))) := by
  refine ⟨bankRunOps_nonneg ops _ h, fun acc amount => ⟨?_, ?_⟩⟩
  · intro h1 h2
    have h2' : amount ≤ acc.balance := h2
    simp [BankAccount.withdraw, BankAccount.getBalance, h1, h2']
  · intro hc
    simp only [BankAccount.withdraw]
    rw [if_neg]
    exact fun hx => hc ⟨hx.1, hx.2⟩

/-- C7, witness: an account opened with balance `1000`, after depositing
`500`, attempting to withdraw `2000` (refused) and withdrawing `300`,
still has a non-negative balance. -/
theorem C7_balance_invariant_witness :
    0 ≤ ((BankAccount.mk "12345" "John" 1000).runOps
      [BankOp.deposit 500, BankOp.withdraw 2000,
        BankOp.withdraw 300]).getBalance :=
  (C7_balance_invariant "12345" "John" 1000 (by norm_num)
    [BankOp.deposit 500, BankOp.withdraw 2000, BankOp.withdraw 300]).1

/-- `findIndex` misses exactly when no element satisfies the callback. -/
theorem findIndex_eq_none {α : Type} (p : α → Bool) (l : List α) :
    findIndex p l = none ↔ ∀ x ∈ l, ¬ p x := by
  induction l with
  | nil => simp [findIndex]
  | cons a l ih =>
    by_cases h : p a <;> simp [findIndex, h, ih]

/-- A hit of `findIndex` is in bounds and satisfies the callback. -/
theorem findIndex_eq_some {α : Type} (p : α → Bool) (l : List α) (i : ℕ)
    (h : findIndex p l = some i) :
    ∃ hlt : i < l.length, p (l.get ⟨i, hlt⟩) = true := by
  induction l generalizing i with
  | nil => simp [findIndex] at h
  | cons a l ih =>
    by_cases hp : p a
    · simp [findIndex, hp] at h
      subst h
      exact ⟨by simp, by simpa using hp⟩
    · simp [findIndex, hp] at h
      obtain ⟨j, hj, rfl⟩ := h
      obtain ⟨hlt, hpj⟩ := ih j hj
      exact ⟨by simpa using hlt, by simpa using hpj⟩

/-- Writing back the value a position already holds changes nothing. -/
theorem set_eq_self_of_getElem? {α : Type} :
    ∀ (l : List α) (i : ℕ) (a : α), l[i]? = some a → l.set i a = l
  | [], _, _ => by simp
  | x :: l, 0, a => by
    intro h
    simp at h
    simp [h]
  | x :: l, i + 1, a => by
    intro h
    simp at h
    simp [set_eq_self_of_getElem? l i a h]

/-- `save` keeps the stored ids pairwise distinct: the `findIndex` branch
overwrites the one user that already has the id, the push branch appends
an id no stored user has. -/
theorem save_preserves_nodup (repo : UserRepository) (user : User)
    (h : (repo.users.map User.id).Nodup) :
    ((repo.save user).users.map User.id).Nodup := by
  unfold UserRepository.save
  cases hidx : findIndex (fun u => u.id = user.id) repo.users with
  | some i =>
    obtain ⟨hlt, hp⟩ := findIndex_eq_some _ _ _ hidx
    have hid : (repo.users.get ⟨i, hlt⟩).id = user.id := by simpa using hp
    have hmap : (repo.users.set i user).map User.id =
        repo.users.map User.id := by
      rw [List.map_set]
      apply set_eq_self_of_getElem?
      rw [List.getElem?_eq_getElem (by simpa using hlt)]
      simp [← hid]
    simpa [hmap] using h
  | none =>
    have hnone := (findIndex_eq_none (fun u => u.id = user.id)
      repo.users).mp hidx
    have hnotin : user.id ∉ repo.users.map User.id := by
      simp only [List.mem_map]
      rintro ⟨x, hx, hxid⟩
      exact hnone x hx (by simp [hxid])
    simp [List.nodup_append, h, hnotin]

/-- `delete` keeps the stored ids pairwise distinct: `splice` only removes
an element. -/
theorem delete_preserves_nodup (repo : UserRepository) (id : ℤ)
    (h : (repo.users.map User.id).Nodup) :
    ((repo.deleteById id).2.users.map User.id).Nodup := by
  unfold UserRepository.deleteById
  cases hidx : findIndex (fun u => u.id = id) repo.users with
  | some i =>
    exact List.Nodup.sublist
      (List.Sublist.map User.id (List.eraseIdx_sublist repo.users i)) h
  | none => exact h

/-- Every `save`/`delete` call preserves distinctness of the stored ids. -/
theorem repoStep_preserves_nodup (repo : UserRepository) (op : RepoOp)
    (h : (repo.users.map User.id).Nodup) :
    ((repo.step op).users.map User.id).Nodup := by
  cases op with
  | save u => exact save_preserves_nodup repo u h
  | deleteById i => exact delete_preserves_nodup repo i h

/-- Every call sequence preserves distinctness of the stored ids. -/
theorem repoRunOps_nodup (ops : List RepoOp) :
    ∀ repo : UserRepository, (repo.users.map User.id).Nodup →
      ((repo.runOps ops).users.map User.id).Nodup := by
  induction ops with
  | nil => exact fun repo h => h
  | cons op ops ih =>
    intro repo h
    exact ih (repo.step op) (repoStep_preserves_nodup repo op h)

/-- C4, counterexample: no state reachable from the empty repository by
`save` and `delete` calls holds two users with the same id — `save`'s
`findIndex` branch replaces instead of appending, so the duplicate state
the claim asserts does not exist. -/
theorem C4_no_duplicate_reachable :
    ¬ ∃ ops : List RepoOp,
      (UserRepository.runOps UserRepository.empty ops).hasDupId := by
  rintro ⟨ops, hdup⟩
  exact hdup (repoRunOps_nodup ops UserRepository.empty (by simp [UserRepository.empty]))

/-- C4, amended: `UserRepository` does maintain a uniqueness invariant —
after every sequence of `save` and `delete` calls starting from the empty
repository, the stored user ids are pairwise distinct. -/
theorem C4_unique_ids_invariant (ops : List RepoOp) :
    ((UserRepository.runOps UserRepository.empty ops).users.map
      User.id).Nodup :=
  repoRunOps_nodup ops UserRepository.empty (by simp [UserRepository.empty])

/-- C8: `swapArrayElements` throws exactly when an index is outside
`[0, arr.length)`; otherwise the returned array has `arr`'s entries at the
two indices exchanged and every other position unchanged (for equal
indices it is `arr`'s copy; the input list itself is untouched — the
embedding is pure and the result is built from `arr` by `set`). -/
theorem C8_swapArrayElements_spec {T : Type} [Inhabited T] (arr : List T)
    (index1 index2 : ℤ) :
    ((∃ e, swapArrayElements arr index1 index2 = .error e) ↔
      (index1 < 0 ∨ index1 ≥ arr.length ∨ index2 < 0 ∨
        index2 ≥ arr.length)) ∧
    (∀ r, swapArrayElements arr index1 index2 = .ok r →
      r.length = arr.length ∧
      r[index1.toNat]? = arr[index2.toNat]? ∧
      r[index2.toNat]? = arr[index1.toNat]? ∧
      (∀ j : ℕ, (j : ℤ) ≠ index1 → (j : ℤ) ≠ index2 → r[j]? = arr[j]?)) := by
  by_cases hoob : index1 < 0 ∨ index1 ≥ arr.length ∨ index2 < 0 ∨
    index2 ≥ arr.length
  · constructor
    · exact ⟨fun _ => hoob, fun _ => ⟨"Index out of bounds",
        by simp [swapArrayElements, hoob]⟩⟩
    · intro r hr
      simp [swapArrayElements, hoob] at hr
  · have h1a : 0 ≤ index1 := by omega
    have hlt : index1 < arr.length ∧ index2 < arr.length ∧ 0 ≤ index2 := by
      push_neg at hoob
      exact ⟨hoob.2.1, hoob.2.2.2, hoob.2.2.1⟩
    obtain ⟨h1b, h2b, h2a⟩ := hlt
    have ha : index1.toNat < arr.length := by omega
    have hb : index2.toNat < arr.length := by omega
    constructor
    · constructor
      · rintro ⟨e, he⟩
        simp only [swapArrayElements] at he
        rw [if_neg hoob] at he
        by_cases heq : index1 = index2
        · rw [if_pos heq] at he
          exact absurd he (by simp)
        · rw [if_neg heq] at he
          exact absurd he (by simp)
      · intro h
        exact absurd h hoob
    · intro r hr
      simp only [swapArrayElements] at hr
      rw [if_neg hoob] at hr
      by_cases heq : index1 = index2
      · rw [if_pos heq] at hr
        injection hr with hr
        subst hr
        exact ⟨rfl, by rw [heq], by rw [heq], fun j _ _ => rfl⟩
      · rw [if_neg heq] at hr
        injection hr with hr
        subst hr
        have hga : arr.getD index1.toNat default = arr[index1.toNat] := by
          rw [List.getD_eq_getElem?_getD, List.getElem?_eq_getElem ha]
          rfl
        have hgb : arr.getD index2.toNat default = arr[index2.toNat] := by
          rw [List.getD_eq_getElem?_getD, List.getElem?_eq_getElem hb]
          rfl
        refine ⟨by simp, ?_, ?_, ?_⟩
        · rw [List.getElem?_set_ne (by omega), List.getElem?_set_self]
          · rw [hgb, List.getElem?_eq_getElem hb]
          · exact ha
        · rw [List.getElem?_set_self]
          · rw [hga, List.getElem?_eq_getElem ha]
          · simpa using hb
        · intro j hj1 hj2
          rw [List.getElem?_set_ne (by omega), List.getElem?_set_ne (by omega)]

/-- C9: `getAverage` returns `null` exactly on the empty array, and on a
non-empty array it returns the sum of the entries divided by their
number. -/
theorem C9_getAverage_spec (numbers : List ℚ) :
    (getAverage numbers = none ↔ numbers = []) ∧
    (numbers ≠ [] →
      getAverage numbers = some (numbers.sum / numbers.length)) := by
  constructor
  · simp [getAverage]
  · intro h
    have hlen : numbers.length ≠ 0 := by simpa using h
    simp [getAverage, hlen, List.sum_eq_foldl]

/-- C8, at a concrete input: swapping positions `1` and `2` of
`[10, 20, 30]` yields `[10, 30, 20]`, exchanging exactly those entries. -/
theorem C8_swapArrayElements_spec_witness :
    ([10, 30, 20] : List ℤ).length = ([10, 20, 30] : List ℤ).length ∧
    ([10, 30, 20] : List ℤ)[(1 : ℤ).toNat]? =
      ([10, 20, 30] : List ℤ)[(2 : ℤ).toNat]? ∧
    ([10, 30, 20] : List ℤ)[(2 : ℤ).toNat]? =
      ([10, 20, 30] : List ℤ)[(1 : ℤ).toNat]? ∧
    (∀ j : ℕ, (j : ℤ) ≠ 1 → (j : ℤ) ≠ 2 →
      ([10, 30, 20] : List ℤ)[j]? = ([10, 20, 30] : List ℤ)[j]?) :=
  (C8_swapArrayElements_spec [10, 20, 30] 1 2).2 [10, 30, 20] (by rfl)

/-- C9, at a concrete input: the average of `[1, 2, 3]` is its sum divided
by its length. -/
theorem C9_getAverage_spec_witness :
    getAverage [1, 2, 3] =
      some (([1, 2, 3] : List ℚ).sum / ([1, 2, 3] : List ℚ).length) :=
  (C9_getAverage_spec [1, 2, 3]).2 (by decide)
